import Mathlib

/-!
Verification development for the gdmongolite query-translation and
data-access layer.  The repository ships only examples, tests and glue;
the core package (filter compiler, schema validator, query builder,
hook dispatcher, execution adapter) is specified in spec.md and is
modelled here from that specification.
-/

set_option maxHeartbeats 1000000

namespace GDMongo

/-- Modelled from the spec: document-store values (the payloads carried by
filters, records and driver calls).  The core passes them through unchanged. -/
inductive Value where
  | null : Value
  | bool : Bool → Value
  | int : Int → Value
  | str : String → Value
  | list : List Value → Value

mutual

/-- Structural equality test on document-store values. -/
def Value.beq : Value → Value → Bool
  | .null, .null => true
  | .bool a, .bool b => a = b
  | .int a, .int b => a = b
  | .str a, .str b => a = b
  | .list a, .list b => Value.beqList a b
  | _, _ => false

/-- Structural equality test on lists of document-store values. -/
def Value.beqList : List Value → List Value → Bool
  | [], [] => true
  | a :: as, b :: bs => Value.beq a b && Value.beqList as bs
  | _, _ => false

end

/-- A stored document: an ordered field-name-to-value mapping. -/
abbrev Doc := List (String × Value)

/-! ## Filter expressions (§3, §4.2)

A filter expression is a flat mapping from `field[__suffix]` keys to
comparison values, where a value under an explicit `$or`/`$and` grouping
key is a list of nested filter mappings.  Mutual inductives give the
nested-mapping structure directly. -/

mutual

/-- Modelled from the spec: a value in a filter mapping — either a plain
comparison value or (under `$or`/`$and`) a list of nested filter mappings. -/
inductive FilterVal where
  | val : Value → FilterVal
  | group : FilterList → FilterVal

/-- Modelled from the spec: a list of nested filter mappings (the payload of
a `$or`/`$and` grouping key). -/
inductive FilterList where
  | nil : FilterList
  | cons : FilterMap → FilterList → FilterList

/-- Modelled from the spec: a flat filter mapping from keys to filter values. -/
inductive FilterMap where
  | nil : FilterMap
  | cons : String → FilterVal → FilterMap → FilterMap

end

/-! ## The compiled, store-native filter tree (§4.2, §6) -/

/-- Modelled from the spec: the store-native condition placed under a field
name: a native operator with its value, or the store's pattern-match
(`$regex`) with a pattern and a case-insensitivity flag, or a logical group
(a list of nested native documents, used under `$or`/`$and`). -/
inductive NativeVal where
  | cond : String → Value → NativeVal
  | regexCond : String → Bool → NativeVal
  | group : List (List (String × NativeVal)) → NativeVal

/-- A compiled store-native filter document. -/
abbrev NativeDoc := List (String × NativeVal)

/-- Modelled from the spec: errors signalled by the filter compiler —
caller-programming errors that fail the call immediately (§7). -/
inductive CompileError where
  | unknownOperator : String → CompileError
  | malformedFilter : String → CompileError
deriving DecidableEq

/-! ## Key splitting (§4.2)

The compiler splits each key at the last occurrence of the operator-suffix
delimiter `__`; the left part is the field path, the right part (if present)
is the operator token. -/

/-- One step of the right-to-left delimiter search: if the rest of the list
already split, extend the prefix; otherwise split here exactly when the
current and next characters form the `__` delimiter. -/
def rsplitStep (c : Char) (cs : List Char) :
    Option (List Char × List Char) → Option (List Char × List Char)
  | some (pre, suf) => some (c :: pre, suf)
  | none =>
    if c = '_' then
      match cs with
      | '_' :: rest => some ([], rest)
      | _ => none
    else none

/-- Modelled from the spec: split a character list at the last occurrence of
the delimiter `__`, returning the part before and the part after it, or
`none` when the delimiter does not occur. -/
def rsplitDunder : List Char → Option (List Char × List Char)
  | [] => none
  | c :: cs => rsplitStep c cs (rsplitDunder cs)

/-- Modelled from the spec: split a filter key into field path and optional
operator token at the last `__` delimiter. -/
def splitKey (k : String) : String × Option String :=
  match rsplitDunder k.data with
  | some (pre, suf) => (String.mk pre, some (String.mk suf))
  | none => (k, none)

/-! ## The fixed suffix-to-operator table (§6) -/

/-- Modelled from the spec: the fixed suffix-to-operator lookup table for
the operators that translate directly to a native operator symbol. -/
def opTable : List (String × String) :=
  [("eq", "$eq"), ("ne", "$ne"), ("gt", "$gt"), ("gte", "$gte"),
   ("lt", "$lt"), ("lte", "$lte"), ("in", "$in"), ("nin", "$nin"),
   ("exists", "$exists"), ("regex", "$regex")]

/-- All recognized operator suffixes, the regex family included. -/
def knownSuffixes : List String :=
  opTable.map Prod.fst ++ ["contains", "icontains", "startswith", "endswith"]

/-- Characters that are special in the store's pattern-match syntax. -/
def isRegexMeta (c : Char) : Bool :=
  c = '.' || c = '^' || c = '$' || c = '*' || c = '+' || c = '?' ||
  c = '\x7b' || c = '\x7d' || c = '[' || c = ']' || c = '\\' ||
  c = '|' || c = '(' || c = ')'

/-- Modelled from the spec: escape a string for literal (non-wildcard)
matching inside the store's pattern-match operator. -/
def reEscape (s : String) : String :=
  String.mk (s.data.foldr (fun c acc => if isRegexMeta c then '\\' :: c :: acc else c :: acc) [])

/-- Render a filter value as the string fed to the pattern-match escape. -/
def strOfValue : Value → String
  | .str s => s
  | .int n => toString n
  | .bool b => toString b
  | .null => "null"
  | .list _ => ""

/-! ## The filter compiler (§4.2) -/

mutual

/-- Modelled from the spec: compile one key/value entry of a filter mapping.
`$or`/`$and` keys take a non-empty list of nested mappings, each recursively
compiled; otherwise the key is split at the `__` delimiter, a recognized
suffix selects the native operator per the fixed table (§6) and an
unrecognized suffix fails fast with `unknownOperator` naming the key;
a key with no delimiter is a literal field name compared with `$eq`. -/
def compileEntry (key : String) (v : FilterVal) : Except CompileError (String × NativeVal) :=
  match splitKey key, v with
  | (fld, some suf), .val value =>
    match opTable.lookup suf with
    | some natOp => .ok (fld, .cond natOp value)
    | none =>
      if suf = "contains" then
        .ok (fld, .regexCond (reEscape (strOfValue value)) false)
      else if suf = "icontains" then
        .ok (fld, .regexCond (reEscape (strOfValue value)) true)
      else if suf = "startswith" then
        .ok (fld, .regexCond ("^" ++ reEscape (strOfValue value)) false)
      else if suf = "endswith" then
        .ok (fld, .regexCond (reEscape (strOfValue value) ++ "$") false)
      else .error (.unknownOperator key)
  | (_, some _), .group _ => .error (.malformedFilter key)
  | (_, none), .val value =>
    if key = "$or" ∨ key = "$and" then .error (.malformedFilter key)
    else .ok (key, .cond "$eq" value)
  | (_, none), .group gs =>
    if key = "$or" ∨ key = "$and" then
      match gs with
      | .nil => .error (.malformedFilter key)
      | _ =>
        match compileList gs with
        | .ok docs => .ok (key, .group docs)
        | .error e => .error e
    else .error (.malformedFilter key)

/-- Modelled from the spec: recursively compile each nested filter mapping
of a logical group. -/
def compileList : FilterList → Except CompileError (List NativeDoc)
  | .nil => .ok []
  | .cons m rest =>
    match compileMap m, compileList rest with
    | .ok d, .ok ds => .ok (d :: ds)
    | .error e, _ => .error e
    | _, .error e => .error e

/-- Modelled from the spec: compile a flat filter mapping into the
store-native filter document; multiple top-level keys are implicitly
AND-ed side by side. -/
def compileMap : FilterMap → Except CompileError NativeDoc
  | .nil => .ok []
  | .cons k v rest =>
    match compileEntry k v, compileMap rest with
    | .ok e, .ok es => .ok (e :: es)
    | .error e, _ => .error e
    | _, .error e => .error e

end

/-! ## Schema validator (§4.1) -/

/-- Modelled from the spec: one structured validation violation, naming the
offending field. -/
structure Violation where
  field : String
  msg : String
deriving DecidableEq

/-- Modelled from the spec: reusable field constraints (bounded string
length, bounded numeric range, email-shaped pattern). -/
inductive FieldConstraint where
  | minLen : Nat → FieldConstraint
  | maxLen : Nat → FieldConstraint
  | minVal : Int → FieldConstraint
  | maxVal : Int → FieldConstraint
  | emailPattern : FieldConstraint

/-- Modelled from the spec: a field definition of a schema. -/
structure FieldDef where
  name : String
  required : Bool
  constraints : List FieldConstraint

/-- Modelled from the spec: a schema is a named ordered set of field
definitions; the collection binding is carried separately as a name. -/
abbrev Schema := List FieldDef

/-- Look a field up in a document. -/
def lookupField (d : Doc) (f : String) : Option Value :=
  match d.find? (fun p => p.1 == f) with
  | some p => some p.2
  | none => none

/-- A minimal email shape test: the string contains an `@` and a dot. -/
def emailOk (s : String) : Bool :=
  s.data.contains '@' && s.data.contains '.'

/-- Modelled from the spec: check one constraint of a field against a
present value, yielding the violations it produces. -/
def checkConstraint (fname : String) (v : Value) : FieldConstraint → List Violation
  | .minLen n =>
    match v with
    | .str s => if s.length < n then [⟨fname, "too short"⟩] else []
    | _ => []
  | .maxLen n =>
    match v with
    | .str s => if n < s.length then [⟨fname, "too long"⟩] else []
    | _ => []
  | .minVal n =>
    match v with
    | .int i => if i < n then [⟨fname, "below minimum"⟩] else []
    | _ => []
  | .maxVal n =>
    match v with
    | .int i => if n < i then [⟨fname, "above maximum"⟩] else []
    | _ => []
  | .emailPattern =>
    match v with
    | .str s => if emailOk s then [] else [⟨fname, "invalid email"⟩]
    | _ => [⟨fname, "invalid email"⟩]

/-- Modelled from the spec: check one schema field against the record —
a required absent field is a violation; a present value is checked against
every constraint and all violated constraints are collected. -/
def checkField (d : Doc) (fd : FieldDef) : List Violation :=
  match lookupField d fd.name with
  | none => if fd.required then [⟨fd.name, "missing"⟩] else []
  | some v => (fd.constraints.map (checkConstraint fd.name v)).flatten

/-- Modelled from the spec: validate a candidate record against a schema,
collecting every violated constraint across all fields. -/
def validate (sch : Schema) (d : Doc) : List Violation :=
  (sch.map (checkField d)).flatten

/-- The `User` schema of the examples: `name` 1–100 chars, `email`
pattern-validated, `age` in `[0, 150]`, optional `hobbies`. -/
def userSchema : Schema :=
  [⟨"name", true, [.minLen 1, .maxLen 100]⟩,
   ⟨"email", true, [.emailPattern]⟩,
   ⟨"age", true, [.minVal 0, .maxVal 150]⟩,
   ⟨"hobbies", false, []⟩]

/-! ## Response envelope (§4.5) -/

/-- Modelled from the spec: the uniform result object of every
write/delete operation, with hook failures surfaced as warnings. -/
structure Envelope where
  success : Bool
  message : String
  error : List Violation
  count : Nat
  data : List Doc
  warnings : List String

/-! ## Event hook dispatcher (§4.4) -/

/-- Modelled from the spec: the context handed to hook callbacks: the
operation's target collection name, its compiled filter, and its payload. -/
structure HookCtx where
  collection : String
  filt : NativeDoc
  payload : List Doc

/-- Modelled from the spec: a registered callback handle — a name and a
function that may transform the context or fail. -/
structure Hook where
  name : String
  fn : HookCtx → Except String HookCtx

/-- Modelled from the spec: the process-wide hook registry, an append-only
mapping from event name to registered callback handles. -/
structure Registry where
  hooks : List (String × Hook)

/-- The callbacks registered for one event, in registration order. -/
def Registry.hooksFor (r : Registry) (ev : String) : List Hook :=
  (r.hooks.filter (fun p => p.1 == ev)).map Prod.snd

/-- Modelled from the spec: hook registration through the `on(event)`
decorator — appends the callback to the process-wide registry and hands the
decorated function back unchanged. -/
def Registry.on (r : Registry) (ev : String) (h : Hook) : Registry × Hook :=
  ({ hooks := r.hooks ++ [(ev, h)] }, h)

/-- The empty registry (process start). -/
def emptyRegistry : Registry := ⟨[]⟩

/-- Modelled from the spec: dispatch invokes all callbacks for an event in
registration order; a failing callback is isolated — its failure is captured
as a warning and the context flows past it unchanged.  Returns the final
context, the collected warnings, and the trace of invoked callback names. -/
def dispatch : List Hook → HookCtx → HookCtx × List String × List String
  | [], ctx => (ctx, [], [])
  | h :: rest, ctx =>
    match h.fn ctx with
    | .ok c =>
      let r := dispatch rest c
      (r.1, r.2.1, h.name :: r.2.2)
    | .error e =>
      let r := dispatch rest ctx
      (r.1, e :: r.2.1, h.name :: r.2.2)

/-! ## Storage driver (§6, external collaborator) -/

/-- Comparison on values used by the driver's sort (driver-side concern). -/
def valueLe : Value → Value → Bool
  | .int a, .int b => a ≤ b
  | .str a, .str b => a ≤ b
  | .bool a, .bool b => !a || b
  | _, _ => true

/-- Driver-side document comparison along a sort spec (field, direction). -/
def docLe (spec : List (String × Int)) (a b : Doc) : Bool :=
  match spec with
  | [] => true
  | (f, dir) :: rest =>
    let av := (lookupField a f).getD .null
    let bv := (lookupField b f).getD .null
    if Value.beq av bv then docLe rest a b
    else if 0 ≤ dir then valueLe av bv else valueLe bv av

/-- Insertion step of the driver's sort. -/
def insertSorted (le : Doc → Doc → Bool) (x : Doc) : List Doc → List Doc
  | [] => [x]
  | y :: ys => if le x y then x :: y :: ys else y :: insertSorted le x ys

/-- Driver-side sort of a result sequence. -/
def sortDocs (spec : List (String × Int)) (docs : List Doc) : List Doc :=
  match spec with
  | [] => docs
  | _ => docs.foldr (insertSorted (docLe spec)) []

/-- Apply a projection (included or excluded field set) to a document. -/
def applyProjection : Option (Bool × List String) → Doc → Doc
  | none, d => d
  | some (true, fields), d => d.filter (fun p => fields.contains p.1)
  | some (false, fields), d => d.filter (fun p => !fields.contains p.1)

/-- Apply a limit; `0` means unbounded. -/
def applyLimit (n : Nat) (docs : List Doc) : List Doc :=
  if n = 0 then docs else docs.take n

/-- Modelled from the spec: the storage-driver collaborator — an in-memory
document store together with the store's own native-filter matching
semantics (matching is the store's concern, §6). -/
structure Driver where
  store : List Doc
  matchesFn : NativeDoc → Doc → Bool

/-- The documents of the store matching a native filter. -/
def Driver.matching (d : Driver) (nf : NativeDoc) : List Doc :=
  d.store.filter (d.matchesFn nf)

/-- Modelled from the spec: the narrow request interface the core sends to
the storage driver. -/
inductive DriverReq where
  | findMany : NativeDoc → List (String × Int) → Option (Bool × List String) →
      Nat → Nat → DriverReq
  | insertMany : List Doc → DriverReq
  | updateMany : NativeDoc → Doc → DriverReq
  | deleteMany : NativeDoc → DriverReq
  | countReq : NativeDoc → DriverReq

/-- A storage-driver response: a result sequence or an affected count. -/
inductive DriverResp where
  | docs : List Doc → DriverResp
  | num : Nat → DriverResp

/-- Set one field of a document (update-operation application). -/
def setField (d : Doc) (f : String) (v : Value) : Doc :=
  if (d.find? (fun p => p.1 == f)).isSome then
    d.map (fun p => if p.1 == f then (f, v) else p)
  else d ++ [(f, v)]

/-- Apply an update payload field by field. -/
def applyUpdateOps (ops : Doc) (d : Doc) : Doc :=
  ops.foldl (fun acc p => setField acc p.1 p.2) d

/-- Modelled from the spec: driver execution of one request against the
in-memory store — find applies matching, sort, skip, limit and projection;
writes return affected counts and the updated store. -/
def execReq (d : Driver) : DriverReq → DriverResp × Driver
  | .findMany nf srt proj skp lim =>
    (.docs ((applyLimit lim ((sortDocs srt (d.matching nf)).drop skp)).map
        (applyProjection proj)), d)
  | .insertMany docs => (.num docs.length, ⟨d.store ++ docs, d.matchesFn⟩)
  | .updateMany nf ops =>
    (.num (d.matching nf).length,
     ⟨d.store.map (fun doc => if d.matchesFn nf doc then applyUpdateOps ops doc else doc),
      d.matchesFn⟩)
  | .deleteMany nf =>
    (.num (d.matching nf).length,
     ⟨d.store.filter (fun doc => !d.matchesFn nf doc), d.matchesFn⟩)
  | .countReq nf => (.num (d.matching nf).length, d)

/-! ## Execution adapter (§4.5, §5) -/

/-- Modelled from the spec: the single asynchronous core of an operation —
a computation that suspends only at storage-driver call boundaries. -/
inductive AsyncOp (α : Type) where
  | ret : α → AsyncOp α
  | driverCall : DriverReq → (DriverResp → AsyncOp α) → AsyncOp α

/-- Asynchronous execution: await the core on the caller's cooperative
event loop until it produces its result. -/
def runAsync {α : Type} (d : Driver) : AsyncOp α → α × Driver
  | .ret a => (a, d)
  | .driverCall req k =>
    let r := execReq d req
    runAsync r.2 (k r.1)

/-- One cooperative scheduler step: either the core finished, or it
suspended at a driver call and resumes with the response. -/
def stepOp {α : Type} (d : Driver) : AsyncOp α → (AsyncOp α × Driver) ⊕ (α × Driver)
  | .ret a => .inr (a, d)
  | .driverCall req k =>
    let r := execReq d req
    .inl (k r.1, r.2)

/-- Modelled from the spec: the synchronous wrapper's private execution
context — iterate scheduler steps with fuel until the core completes. -/
def runPrivate {α : Type} : Nat → Driver → AsyncOp α → Option (α × Driver)
  | 0, _, _ => none
  | n + 1, d, p =>
    match stepOp d p with
    | .inr r => some r
    | .inl (p', d') => runPrivate n d' p'

/-- The number of driver suspensions the core makes along its execution
path against a given driver. -/
def pathLength {α : Type} (d : Driver) : AsyncOp α → Nat
  | .ret _ => 0
  | .driverCall req k =>
    let r := execReq d req
    pathLength r.2 (k r.1) + 1

/-! ## Query builder (§4.3) -/

/-- Modelled from the spec: the immutable snapshot a query builder holds —
filter expression, sort spec, projection, skip and limit. -/
structure QueryBuilder where
  filt : FilterMap
  sortSpec : List (String × Int)
  projection : Option (Bool × List String)
  skip : Nat
  limit : Nat

/-- The empty query (no filter, no sort, no projection, no paging). -/
def emptyQuery : QueryBuilder := ⟨.nil, [], none, 0, 0⟩

/-- Append two flat filter mappings. -/
def appendMap : FilterMap → FilterMap → FilterMap
  | .nil, m => m
  | .cons k v rest, m => .cons k v (appendMap rest m)

/-- Parse one sort field spec: a leading `-` marks descending order. -/
def parseSortField (s : String) : String × Int :=
  match s.data with
  | '-' :: rest => (String.mk rest, -1)
  | _ => (s, 1)

/-- Modelled from the spec: `filter` returns a new snapshot with the extra
clauses appended; the pair is (the receiver as the call leaves it, the new
snapshot). -/
def QueryBuilder.filterWith (q : QueryBuilder) (extra : FilterMap) :
    QueryBuilder × QueryBuilder :=
  (q, { q with filt := appendMap q.filt extra })

/-- Modelled from the spec: `sort` concatenates parsed field specs onto the
sort spec and returns a new snapshot, leaving the receiver unchanged. -/
def QueryBuilder.sortBy (q : QueryBuilder) (specs : List String) :
    QueryBuilder × QueryBuilder :=
  (q, { q with sortSpec := q.sortSpec ++ specs.map parseSortField })

/-- Modelled from the spec: `project` sets an included or excluded field
set and returns a new snapshot, leaving the receiver unchanged. -/
def QueryBuilder.projectTo (q : QueryBuilder) (inc : Bool) (fields : List String) :
    QueryBuilder × QueryBuilder :=
  (q, { q with projection := some (inc, fields) })

/-- Modelled from the spec: `skip(n)` returns a new snapshot with the skip
count set, leaving the receiver unchanged. -/
def QueryBuilder.skipN (q : QueryBuilder) (n : Nat) : QueryBuilder × QueryBuilder :=
  (q, { q with skip := n })

/-- Modelled from the spec: `limit(n)` returns a new snapshot with the
limit set (`0` meaning unbounded), leaving the receiver unchanged. -/
def QueryBuilder.limitN (q : QueryBuilder) (n : Nat) : QueryBuilder × QueryBuilder :=
  (q, { q with limit := n })

/-- Modelled from the spec: the effective sort — later entries for the same
field name override earlier ones (last-write-wins per field). -/
def effectiveSort : List (String × Int) → List (String × Int)
  | [] => []
  | (f, dir) :: rest =>
    if rest.any (fun p => p.1 == f) then effectiveSort rest
    else (f, dir) :: effectiveSort rest

/-- The store-native compiled form of a whole query. -/
structure NativeQuery where
  filter : NativeDoc
  sort : List (String × Int)
  projection : Option (Bool × List String)
  skip : Nat
  limit : Nat

/-- Modelled from the spec: compile a query snapshot at terminal execution:
compile the filter and take the effective sort. -/
def compileQuery (q : QueryBuilder) : Except CompileError NativeQuery :=
  match compileMap q.filt with
  | .ok nf => .ok ⟨nf, effectiveSort q.sortSpec, q.projection, q.skip, q.limit⟩
  | .error e => .error e

/-! ## Read and write operations (§4.3–§4.5) -/

/-- The materialized result of a read terminal: the data, the warnings
collected from hook failures, and the trace of invoked hook names. -/
structure FindResult where
  data : List Doc
  warnings : List String
  trace : List String

/-- Modelled from the spec: the single asynchronous core of `toList` —
dispatch `pre_query` hooks, call the driver's `findMany`, dispatch
`post_query` hooks, and return data with warnings. -/
def findCore (reg : Registry) (coll : String) (nq : NativeQuery) : AsyncOp FindResult :=
  let pre := dispatch (reg.hooksFor "pre_query") ⟨coll, nq.filter, []⟩
  .driverCall (.findMany pre.1.filt nq.sort nq.projection nq.skip nq.limit) (fun resp =>
    match resp with
    | .docs ds =>
      let post := dispatch (reg.hooksFor "post_query") ⟨coll, pre.1.filt, ds⟩
      .ret ⟨ds, pre.2.1 ++ post.2.1, pre.2.2 ++ post.2.2⟩
    | _ => .ret ⟨[], pre.2.1, pre.2.2⟩)

/-- Modelled from the spec: the single asynchronous core of `count` — the
hook pair fires once and the count runs against the compiled filter only,
ignoring skip, limit and projection. -/
def countCore (reg : Registry) (coll : String) (nf : NativeDoc) :
    AsyncOp (Nat × List String) :=
  let pre := dispatch (reg.hooksFor "pre_query") ⟨coll, nf, []⟩
  .driverCall (.countReq pre.1.filt) (fun resp =>
    match resp with
    | .num n => .ret (n, pre.2.1)
    | _ => .ret (0, pre.2.1))

/-- Modelled from the spec: the single asynchronous insert core — validate
every record collecting all violations; on any violation return a failure
envelope without touching the driver, otherwise dispatch insert hooks and
call the driver. -/
def insertCore (reg : Registry) (sch : Schema) (coll : String) (docs : List Doc) :
    AsyncOp Envelope :=
  let errs := (docs.map (validate sch)).flatten
  if errs.isEmpty then
    let pre := dispatch (reg.hooksFor "pre_insert") ⟨coll, [], docs⟩
    .driverCall (.insertMany pre.1.payload) (fun resp =>
      match resp with
      | .num n =>
        let post := dispatch (reg.hooksFor "post_insert") ⟨coll, [], pre.1.payload⟩
        .ret ⟨true, "inserted", [], n, [], pre.2.1 ++ post.2.1⟩
      | _ => .ret ⟨false, "driver error", [], 0, [], pre.2.1⟩)
  else
    .ret ⟨false, "validation failed", errs, 0, [], []⟩

/-- Modelled from the spec: the single asynchronous update core. -/
def updateCore (reg : Registry) (coll : String) (nf : NativeDoc) (ops : Doc) :
    AsyncOp Envelope :=
  let pre := dispatch (reg.hooksFor "pre_update") ⟨coll, nf, [ops]⟩
  .driverCall (.updateMany pre.1.filt ops) (fun resp =>
    match resp with
    | .num n =>
      let post := dispatch (reg.hooksFor "post_update") ⟨coll, pre.1.filt, []⟩
      .ret ⟨true, "updated", [], n, [], pre.2.1 ++ post.2.1⟩
    | _ => .ret ⟨false, "driver error", [], 0, [], pre.2.1⟩)

/-- Modelled from the spec: the single asynchronous delete core. -/
def deleteCore (reg : Registry) (coll : String) (nf : NativeDoc) :
    AsyncOp Envelope :=
  let pre := dispatch (reg.hooksFor "pre_delete") ⟨coll, nf, []⟩
  .driverCall (.deleteMany pre.1.filt) (fun resp =>
    match resp with
    | .num n =>
      let post := dispatch (reg.hooksFor "post_delete") ⟨coll, pre.1.filt, []⟩
      .ret ⟨true, "deleted", [], n, [], pre.2.1 ++ post.2.1⟩
    | _ => .ret ⟨false, "driver error", [], 0, [], pre.2.1⟩)

/-- `toList` asynchronous variant: compile the query, then run the core on
the caller's event loop. -/
def toListRun (reg : Registry) (d : Driver) (coll : String) (q : QueryBuilder) :
    Except CompileError (FindResult × Driver) :=
  match compileQuery q with
  | .ok nq => .ok (runAsync d (findCore reg coll nq))
  | .error e => .error e

/-- `first` asynchronous variant: run `toList` limited to one document and
return its head, or the explicit none sentinel when nothing matched. -/
def firstRun (reg : Registry) (d : Driver) (coll : String) (q : QueryBuilder) :
    Except CompileError (Option Doc × Driver) :=
  match toListRun reg d coll { q with limit := 1 } with
  | .ok r => .ok (r.1.data.head?, r.2)
  | .error e => .error e

/-- `count` asynchronous variant. -/
def countRun (reg : Registry) (d : Driver) (coll : String) (q : QueryBuilder) :
    Except CompileError ((Nat × List String) × Driver) :=
  match compileQuery q with
  | .ok nq => .ok (runAsync d (countCore reg coll nq.filter))
  | .error e => .error e

/-- Insert asynchronous variant. -/
def insertAsync (reg : Registry) (d : Driver) (sch : Schema) (coll : String)
    (docs : List Doc) : Envelope × Driver :=
  runAsync d (insertCore reg sch coll docs)

/-- Update asynchronous variant. -/
def updateAsync (reg : Registry) (d : Driver) (coll : String) (nf : NativeDoc)
    (ops : Doc) : Envelope × Driver :=
  runAsync d (updateCore reg coll nf ops)

/-- Delete asynchronous variant. -/
def deleteAsync (reg : Registry) (d : Driver) (coll : String) (nf : NativeDoc) :
    Envelope × Driver :=
  runAsync d (deleteCore reg coll nf)

/-- Modelled from the spec: `insert_sync` — run the same insert core to
completion on an execution context private to the call. -/
def insert_sync (reg : Registry) (d : Driver) (sch : Schema) (coll : String)
    (docs : List Doc) : Option (Envelope × Driver) :=
  runPrivate (pathLength d (insertCore reg sch coll docs) + 1) d
    (insertCore reg sch coll docs)

/-- Modelled from the spec: `to_list_sync` — compile, then run the same
find core to completion on a private execution context. -/
def to_list_sync (reg : Registry) (d : Driver) (coll : String) (q : QueryBuilder) :
    Except CompileError (Option (FindResult × Driver)) :=
  match compileQuery q with
  | .ok nq =>
    .ok (runPrivate (pathLength d (findCore reg coll nq) + 1) d (findCore reg coll nq))
  | .error e => .error e

/-- Modelled from the spec: `update_sync`. -/
def update_sync (reg : Registry) (d : Driver) (coll : String) (nf : NativeDoc)
    (ops : Doc) : Option (Envelope × Driver) :=
  runPrivate (pathLength d (updateCore reg coll nf ops) + 1) d (updateCore reg coll nf ops)

/-- Modelled from the spec: `delete_sync`. -/
def delete_sync (reg : Registry) (d : Driver) (coll : String) (nf : NativeDoc) :
    Option (Envelope × Driver) :=
  runPrivate (pathLength d (deleteCore reg coll nf) + 1) d (deleteCore reg coll nf)

/-! ## Application-level hooks (src/app.py) and handles -/

/-- From `src/app.py`: the `pre_query` logging hook `log_pre`; its only
effect is console output, so it leaves the context unchanged. -/
def log_pre : Hook := ⟨"log_pre", fun c => .ok c⟩

/-- From `src/app.py`: the `post_query` logging hook `log_post`. -/
def log_post : Hook := ⟨"log_post", fun c => .ok c⟩

/-- From `src/app.py`: importing the module registers `log_pre` for
`pre_query` and `log_post` for `post_query` on the process-wide registry. -/
def appInit (r : Registry) : Registry :=
  ((r.on "pre_query" log_pre).1.on "post_query" log_post).1

/-- A database handle as obtained separately in another module; operations
go through the process-wide registry regardless of the handle. -/
structure DBHandle where
  name : String

/-- A query issued through a particular handle. -/
def DBHandle.findToList (_h : DBHandle) (reg : Registry) (d : Driver)
    (coll : String) (q : QueryBuilder) : Except CompileError (FindResult × Driver) :=
  toListRun reg d coll q

/-- A registry holding the given hooks under one event name. -/
def registryOf (ev : String) (hs : List Hook) : Registry :=
  ⟨hs.map (fun h => (ev, h))⟩

/-- The `pre_query` dispatch an executing read terminal performs. -/
def preDispatch (reg : Registry) (coll : String) (nq : NativeQuery) :
    HookCtx × List String × List String :=
  dispatch (reg.hooksFor "pre_query") ⟨coll, nq.filter, []⟩

/-- The document sequence the driver returns for an executing read:
matching, sort, skip, limit and projection applied in order. -/
def findDocs (reg : Registry) (d : Driver) (coll : String) (nq : NativeQuery) :
    List Doc :=
  (applyLimit nq.limit
    ((sortDocs nq.sort (d.matching (preDispatch reg coll nq).1.filt)).drop nq.skip)).map
    (applyProjection nq.projection)

/-- A hook callback that always raises (used to exercise isolation). -/
def failingHook : Hook := ⟨"bad", fun _ => .error "boom"⟩

/-- A registry with the always-raising callback registered under every
CRUD hook event. -/
def allEventsFailingRegistry : Registry :=
  ⟨[("pre_query", failingHook), ("post_query", failingHook),
    ("pre_insert", failingHook), ("post_insert", failingHook),
    ("pre_update", failingHook), ("post_update", failingHook),
    ("pre_delete", failingHook), ("post_delete", failingHook)]⟩

/-- A one-document store whose matcher accepts everything. -/
def oneDocDriver : Driver := ⟨[[("age", Value.int 30)]], fun _ _ => true⟩

/-! ## Lemmas and claim theorems -/

/-- Unfolding equation for `rsplitDunder` on a cons cell. -/
theorem rsplitDunder_cons (c : Char) (cs : List Char) :
    rsplitDunder (c :: cs) = rsplitStep c cs (rsplitDunder cs) := by
  simp [rsplitDunder]

/-- The delimiter search step finds nothing when the remaining suffix does
not begin with an underscore. -/
theorem rsplitStep_none_of (c : Char) (cs : List Char) (h2 : cs.head? ≠ some '_') :
    rsplitStep c cs none = none := by
  simp only [rsplitStep]
  split
  · split
    · simp at h2
    · rfl
  · rfl

/-- Splitting at the last `__` delimiter: appending `__` and a
delimiter-free, not-underscore-initial suffix to any prefix splits exactly
at that appended delimiter. -/
theorem rsplitDunder_append (pre s : List Char)
    (hs : rsplitDunder s = none) (hhd : s.head? ≠ some '_') :
    rsplitDunder (pre ++ '_' :: '_' :: s) = some (pre, s) := by
  induction pre with
  | nil =>
    rw [List.nil_append, rsplitDunder_cons, rsplitDunder_cons, hs,
        rsplitStep_none_of _ _ hhd]
    rfl
  | cons c cs ih =>
    rw [List.cons_append, rsplitDunder_cons, ih]
    rfl

/-- Key splitting, lifted to strings: a key whose characters are a field
part followed by `__` and a clean operator token splits into that field
and token. -/
theorem splitKey_eq (k f suf : String)
    (h : k.data = f.data ++ '_' :: '_' :: suf.data)
    (hs : rsplitDunder suf.data = none) (hhd : suf.data.head? ≠ some '_') :
    splitKey k = (f, some suf) := by
  unfold splitKey
  rw [h, rsplitDunder_append _ _ hs hhd]

/-- Compiling a single entry whose suffix is in the fixed operator table
yields the table's native operator with the value passed through. -/
theorem compileEntry_table (key f suf natOp : String) (value : Value)
    (hsplit : splitKey key = (f, some suf))
    (hop : opTable.lookup suf = some natOp) :
    compileEntry key (.val value) = .ok (f, .cond natOp value) := by
  unfold compileEntry
  simp only [hsplit, hop]

/-- A singleton filter mapping compiles to the singleton native document of
its compiled entry. -/
theorem compileMap_single (k : String) (v : FilterVal) (e : String × NativeVal)
    (h : compileEntry k v = .ok e) :
    compileMap (.cons k v .nil) = .ok [e] := by
  unfold compileMap
  rw [h]
  rfl

/-- C1: for every filter mapping whose key carries a recognized operator
suffix, the compiled output uses exactly the native operator of the fixed
suffix-to-operator table: `eq→$eq`, `ne→$ne`, `gt→$gt`, `gte→$gte`,
`lt→$lt`, `lte→$lte`, `in→$in`, `nin→$nin`, `exists→$exists`,
`regex→$regex` with the value passed through unchanged; `contains` compiles
to the store's `$regex` pattern-match with the value escaped for literal
matching and no anchors, `icontains` does the same and additionally sets
the case-insensitivity flag, `startswith` anchors the escaped value at the
start, and `endswith` anchors it at the end. -/
theorem C1_suffix_to_operator_table (f : String) (v : Value) (s : String) :
    compileMap (.cons (f ++ "__eq") (.val v) .nil) = .ok [(f, .cond "$eq" v)]
  ∧ compileMap (.cons (f ++ "__ne") (.val v) .nil) = .ok [(f, .cond "$ne" v)]
  ∧ compileMap (.cons (f ++ "__gt") (.val v) .nil) = .ok [(f, .cond "$gt" v)]
  ∧ compileMap (.cons (f ++ "__gte") (.val v) .nil) = .ok [(f, .cond "$gte" v)]
  ∧ compileMap (.cons (f ++ "__lt") (.val v) .nil) = .ok [(f, .cond "$lt" v)]
  ∧ compileMap (.cons (f ++ "__lte") (.val v) .nil) = .ok [(f, .cond "$lte" v)]
  ∧ compileMap (.cons (f ++ "__in") (.val v) .nil) = .ok [(f, .cond "$in" v)]
  ∧ compileMap (.cons (f ++ "__nin") (.val v) .nil) = .ok [(f, .cond "$nin" v)]
  ∧ compileMap (.cons (f ++ "__exists") (.val v) .nil) = .ok [(f, .cond "$exists" v)]
  ∧ compileMap (.cons (f ++ "__regex") (.val v) .nil) = .ok [(f, .cond "$regex" v)]
  ∧ compileMap (.cons (f ++ "__contains") (.val (.str s)) .nil)
      = .ok [(f, .regexCond (reEscape s) false)]
  ∧ compileMap (.cons (f ++ "__icontains") (.val (.str s)) .nil)
      = .ok [(f, .regexCond (reEscape s) true)]
  ∧ compileMap (.cons (f ++ "__startswith") (.val (.str s)) .nil)
      = .ok [(f, .regexCond ("^" ++ reEscape s) false)]
  ∧ compileMap (.cons (f ++ "__endswith") (.val (.str s)) .nil)
      = .ok [(f, .regexCond (reEscape s ++ "$") false)] := by
  refine ⟨?_, ?_, ?_, ?_, ?_, ?_, ?_, ?_, ?_, ?_, ?_, ?_, ?_, ?_⟩
  · exact compileMap_single _ _ _ (compileEntry_table _ _ "eq" _ _
      (splitKey_eq _ _ _ (by rw [String.data_append]) rfl (by decide)) rfl)
  · exact compileMap_single _ _ _ (compileEntry_table _ _ "ne" _ _
      (splitKey_eq _ _ _ (by rw [String.data_append]) rfl (by decide)) rfl)
  · exact compileMap_single _ _ _ (compileEntry_table _ _ "gt" _ _
      (splitKey_eq _ _ _ (by rw [String.data_append]) rfl (by decide)) rfl)
  · exact compileMap_single _ _ _ (compileEntry_table _ _ "gte" _ _
      (splitKey_eq _ _ _ (by rw [String.data_append]) rfl (by decide)) rfl)
  · exact compileMap_single _ _ _ (compileEntry_table _ _ "lt" _ _
      (splitKey_eq _ _ _ (by rw [String.data_append]) rfl (by decide)) rfl)
  · exact compileMap_single _ _ _ (compileEntry_table _ _ "lte" _ _
      (splitKey_eq _ _ _ (by rw [String.data_append]) rfl (by decide)) rfl)
  · exact compileMap_single _ _ _ (compileEntry_table _ _ "in" _ _
      (splitKey_eq _ _ _ (by rw [String.data_append]) rfl (by decide)) rfl)
  · exact compileMap_single _ _ _ (compileEntry_table _ _ "nin" _ _
      (splitKey_eq _ _ _ (by rw [String.data_append]) rfl (by decide)) rfl)
  · exact compileMap_single _ _ _ (compileEntry_table _ _ "exists" _ _
      (splitKey_eq _ _ _ (by rw [String.data_append]) rfl (by decide)) rfl)
  · exact compileMap_single _ _ _ (compileEntry_table _ _ "regex" _ _
      (splitKey_eq _ _ _ (by rw [String.data_append]) rfl (by decide)) rfl)
  · have hsplit : splitKey (f ++ "__contains") = (f, some "contains") :=
      splitKey_eq _ _ _ (by rw [String.data_append]) rfl (by decide)
    apply compileMap_single
    unfold compileEntry
    simp only [hsplit]
    rfl
  · have hsplit : splitKey (f ++ "__icontains") = (f, some "icontains") :=
      splitKey_eq _ _ _ (by rw [String.data_append]) rfl (by decide)
    apply compileMap_single
    unfold compileEntry
    simp only [hsplit]
    rfl
  · have hsplit : splitKey (f ++ "__startswith") = (f, some "startswith") :=
      splitKey_eq _ _ _ (by rw [String.data_append]) rfl (by decide)
    apply compileMap_single
    unfold compileEntry
    simp only [hsplit]
    rfl
  · have hsplit : splitKey (f ++ "__endswith") = (f, some "endswith") :=
      splitKey_eq _ _ _ (by rw [String.data_append]) rfl (by decide)
    apply compileMap_single
    unfold compileEntry
    simp only [hsplit]
    rfl

/-- An association-list lookup misses every key not among the list's keys. -/
theorem lookup_eq_none_of_not_mem {α β : Type} [BEq α] [LawfulBEq α]
    (l : List (α × β)) (a : α) (h : a ∉ l.map Prod.fst) : l.lookup a = none := by
  induction l with
  | nil => rfl
  | cons p rest ih =>
    simp only [List.map_cons, List.mem_cons] at h
    push_neg at h
    have hb : (a == p.1) = false := beq_eq_false_iff_ne.2 h.1
    simp [List.lookup, ih h.2, hb]

/-- C2: a filter key whose tail after the `__` delimiter is not in the
known-operator table fails fast with `UnknownOperatorError` naming the
offending key, and is never silently treated as a field name; a key with
no delimiter (even one containing single underscores) is treated as a
literal field name compared with `$eq`. -/
theorem C2_unknown_operator_fails_fast (k f suf : String) (v : Value) :
    (splitKey k = (f, some suf) → suf ∉ knownSuffixes →
      compileMap (.cons k (.val v) .nil) = .error (.unknownOperator k))
  ∧ (splitKey k = (k, none) → k ≠ "$or" → k ≠ "$and" →
      compileMap (.cons k (.val v) .nil) = .ok [(k, .cond "$eq" v)]) := by
  constructor
  · intro hsplit hunk
    simp only [knownSuffixes, List.mem_append, not_or] at hunk
    obtain ⟨htab, hrest⟩ := hunk
    simp only [List.mem_cons, List.not_mem_nil, not_or] at hrest
    have hlook : opTable.lookup suf = none := lookup_eq_none_of_not_mem _ _ htab
    unfold compileMap compileEntry
    simp only [hsplit, hlook]
    rw [if_neg hrest.1, if_neg hrest.2.1, if_neg hrest.2.2.1, if_neg hrest.2.2.2.1]
    rfl
  · intro hsplit hor hand
    unfold compileMap compileEntry
    simp only [hsplit]
    rw [if_neg (by simp [hor, hand])]
    rfl

/-- C2 witness: the unknown suffix `foo` in `name__foo` fails fast naming
the key, while the underscore-containing key `first_name` is treated as a
literal field name. -/
theorem C2_unknown_operator_fails_fast_witness :
    compileMap (.cons "name__foo" (.val (.str "x")) .nil)
      = .error (.unknownOperator "name__foo")
  ∧ compileMap (.cons "first_name" (.val (.str "x")) .nil)
      = .ok [("first_name", .cond "$eq" (.str "x"))] :=
  ⟨(C2_unknown_operator_fails_fast "name__foo" "name" "foo" (.str "x")).1
      (by decide) (by decide),
   (C2_unknown_operator_fails_fast "first_name" "" "" (.str "x")).2
      (by decide) (by decide) (by decide)⟩

/-- The private execution context drives the asynchronous core to
completion: with fuel covering the core's suspension path, the stepped
execution yields exactly the awaited result. -/
theorem runPrivate_complete {α : Type} (p : AsyncOp α) (d : Driver) :
    runPrivate (pathLength d p + 1) d p = some (runAsync d p) := by
  induction p generalizing d with
  | ret a => rfl
  | driverCall req k ih =>
    simp only [pathLength, runPrivate, stepOp, runAsync]
    exact ih _ _

/-- C5: for every CRUD operation and every input, the synchronous variant
(`insert_sync`, `to_list_sync`, `update_sync`, `delete_sync`) runs the
single asynchronous core to completion on an execution context private to
the call and produces contents bit-identical to the asynchronous
variant's. -/
theorem C5_sync_variants_match_async (reg : Registry) (d : Driver) (sch : Schema)
    (coll : String) (docs : List Doc) (q : QueryBuilder) (nf : NativeDoc) (ops : Doc) :
    insert_sync reg d sch coll docs = some (insertAsync reg d sch coll docs)
  ∧ to_list_sync reg d coll q = Except.map some (toListRun reg d coll q)
  ∧ update_sync reg d coll nf ops = some (updateAsync reg d coll nf ops)
  ∧ delete_sync reg d coll nf = some (deleteAsync reg d coll nf) := by
  refine ⟨runPrivate_complete _ _, ?_, runPrivate_complete _ _, runPrivate_complete _ _⟩
  unfold to_list_sync toListRun
  cases compileQuery q with
  | ok nq => simp [Except.map, runPrivate_complete]
  | error e => rfl

/-- C4: inserting a record that violates several field constraints of the
`User` schema (`name` 1–100 chars, `email` pattern, `age` in `[0,150]`)
returns a Response Envelope with `success = false` whose `error` collects
every violated constraint — inserting
`{name: "", email: "not-an-email", age: -5}` lists all three violations. -/
theorem C4_insert_collects_all_violations :
    (insertAsync emptyRegistry ⟨[], fun _ _ => false⟩ userSchema "User"
        [[("name", .str ""), ("email", .str "not-an-email"), ("age", .int (-5))]]).1.success
      = false
  ∧ (insertAsync emptyRegistry ⟨[], fun _ _ => false⟩ userSchema "User"
        [[("name", .str ""), ("email", .str "not-an-email"), ("age", .int (-5))]]).1.error
      = [⟨"name", "too short"⟩, ⟨"email", "invalid email"⟩, ⟨"age", "below minimum"⟩] := by
  constructor <;> rfl

/-- C6: every chain method (`filter`, `sort`, `project`, `skip`, `limit`)
returns a new snapshot and leaves the receiver's state unchanged — the
receiver component of each call is the untouched receiver, a previously
held reference compiles to the same query after the call, and each new
snapshot differs from the receiver only in the targeted component. -/
theorem C6_chain_methods_immutable (q : QueryBuilder) (extra : FilterMap)
    (specs : List String) (inc : Bool) (fields : List String) (n m : Nat) :
    ((q.filterWith extra).1 = q ∧ (q.sortBy specs).1 = q
      ∧ (q.projectTo inc fields).1 = q ∧ (q.skipN n).1 = q ∧ (q.limitN m).1 = q)
  ∧ (compileQuery (q.filterWith extra).1 = compileQuery q
      ∧ compileQuery (q.sortBy specs).1 = compileQuery q
      ∧ compileQuery (q.projectTo inc fields).1 = compileQuery q
      ∧ compileQuery (q.skipN n).1 = compileQuery q
      ∧ compileQuery (q.limitN m).1 = compileQuery q)
  ∧ ((q.filterWith extra).2.sortSpec = q.sortSpec
      ∧ (q.filterWith extra).2.projection = q.projection
      ∧ (q.filterWith extra).2.skip = q.skip ∧ (q.filterWith extra).2.limit = q.limit)
  ∧ ((q.sortBy specs).2.filt = q.filt ∧ (q.sortBy specs).2.projection = q.projection
      ∧ (q.sortBy specs).2.skip = q.skip ∧ (q.sortBy specs).2.limit = q.limit)
  ∧ ((q.projectTo inc fields).2.filt = q.filt
      ∧ (q.projectTo inc fields).2.sortSpec = q.sortSpec
      ∧ (q.projectTo inc fields).2.skip = q.skip
      ∧ (q.projectTo inc fields).2.limit = q.limit)
  ∧ ((q.skipN n).2.filt = q.filt ∧ (q.skipN n).2.sortSpec = q.sortSpec
      ∧ (q.skipN n).2.projection = q.projection ∧ (q.skipN n).2.limit = q.limit)
  ∧ ((q.limitN m).2.filt = q.filt ∧ (q.limitN m).2.sortSpec = q.sortSpec
      ∧ (q.limitN m).2.projection = q.projection ∧ (q.limitN m).2.skip = q.skip) :=
  ⟨⟨rfl, rfl, rfl, rfl, rfl⟩, ⟨rfl, rfl, rfl, rfl, rfl⟩, ⟨rfl, rfl, rfl, rfl⟩,
   ⟨rfl, rfl, rfl, rfl⟩, ⟨rfl, rfl, rfl, rfl⟩, ⟨rfl, rfl, rfl, rfl⟩, ⟨rfl, rfl, rfl, rfl⟩⟩

/-- C7: repeated `sort` calls concatenate the sort spec rather than replace
it, and a later entry for the same field overrides the earlier one —
`sort("age").sort("-age")` yields the effective sort `age` descending
only. -/
theorem C7_sort_concat_last_write_wins (q : QueryBuilder) (a b : String) :
    ((q.sortBy [a]).2.sortBy [b]).2.sortSpec
      = q.sortSpec ++ [parseSortField a, parseSortField b]
  ∧ (q.sortSpec = [] →
      effectiveSort (((q.sortBy ["age"]).2.sortBy ["-age"]).2.sortSpec)
        = [("age", -1)]) := by
  constructor
  · simp [QueryBuilder.sortBy]
  · intro h
    simp [QueryBuilder.sortBy, h]
    rfl

/-- C7 witness: at the empty query, the two sort calls concatenate and the
effective sort is `age` descending only. -/
theorem C7_sort_concat_last_write_wins_witness :
    effectiveSort (((emptyQuery.sortBy ["age"]).2.sortBy ["-age"]).2.sortSpec)
      = [("age", -1)]
  ∧ ((emptyQuery.sortBy ["x"]).2.sortBy ["y"]).2.sortSpec
      = emptyQuery.sortSpec ++ [parseSortField "x", parseSortField "y"] :=
  ⟨(C7_sort_concat_last_write_wins emptyQuery "x" "y").2 rfl,
   (C7_sort_concat_last_write_wins emptyQuery "x" "y").1⟩

/-- Dispatch over a concatenation threads the context through the first
block and concatenates warnings and traces. -/
theorem dispatch_append (xs ys : List Hook) (ctx : HookCtx) :
    dispatch (xs ++ ys) ctx =
      ((dispatch ys (dispatch xs ctx).1).1,
       (dispatch xs ctx).2.1 ++ (dispatch ys (dispatch xs ctx).1).2.1,
       (dispatch xs ctx).2.2 ++ (dispatch ys (dispatch xs ctx).1).2.2) := by
  induction xs generalizing ctx with
  | nil => simp [dispatch]
  | cons h rest ih =>
    simp only [List.cons_append, dispatch]
    cases hfn : h.fn ctx with
    | ok c => simp [hfn, ih]
    | error e => simp [hfn, ih]

/-- A callback that fails contributes its error as a warning and leaves the
context flowing to the remaining callbacks unchanged. -/
theorem dispatch_fail_cons (h : Hook) (rest : List Hook) (ctx : HookCtx) (e : String)
    (hfail : h.fn ctx = .error e) :
    dispatch (h :: rest) ctx =
      ((dispatch rest ctx).1, e :: (dispatch rest ctx).2.1,
       h.name :: (dispatch rest ctx).2.2) := by
  simp [dispatch, hfail]

/-- Isolation of a failing callback at any registration position: the final
context is as if the callback were absent, and its error is captured among
the warnings. -/
theorem dispatch_isolates (pre post : List Hook) (h : Hook) (e : String)
    (hfail : ∀ c, h.fn c = .error e) (ctx : HookCtx) :
    (dispatch (pre ++ h :: post) ctx).1 = (dispatch (pre ++ post) ctx).1
  ∧ e ∈ (dispatch (pre ++ h :: post) ctx).2.1 := by
  rw [dispatch_append pre (h :: post) ctx, dispatch_append pre post ctx,
      dispatch_fail_cons h post _ e (hfail _)]
  constructor
  · rfl
  · simp

/-- Dispatch invokes every registered callback: the trace is exactly the
registered names in registration order. -/
theorem dispatch_trace (hs : List Hook) (ctx : HookCtx) :
    (dispatch hs ctx).2.2 = hs.map Hook.name := by
  induction hs generalizing ctx with
  | nil => rfl
  | cons h rest ih =>
    simp only [dispatch]
    cases hfn : h.fn ctx with
    | ok c => simp [hfn, ih]
    | error e => simp [hfn, ih]

/-- A registry built for one event yields exactly its hooks for that
event. -/
theorem hooksFor_registryOf (ev : String) (hs : List Hook) :
    (registryOf ev hs).hooksFor ev = hs := by
  induction hs with
  | nil => rfl
  | cons h rest ih =>
    simp only [registryOf, Registry.hooksFor, List.map_cons, List.filter_cons] at *
    simp [ih]

/-- Running the find core awaits to: the driver's result page, the pre- and
post-dispatch warnings, and the pre- and post-dispatch traces. -/
theorem runAsync_findCore (reg : Registry) (d : Driver) (coll : String) (nq : NativeQuery) :
    runAsync d (findCore reg coll nq) =
      (⟨findDocs reg d coll nq,
        (preDispatch reg coll nq).2.1 ++
          (dispatch (reg.hooksFor "post_query")
            ⟨coll, (preDispatch reg coll nq).1.filt, findDocs reg d coll nq⟩).2.1,
        (preDispatch reg coll nq).2.2 ++
          (dispatch (reg.hooksFor "post_query")
            ⟨coll, (preDispatch reg coll nq).1.filt, findDocs reg d coll nq⟩).2.2⟩,
       d) := rfl

/-- Running the insert core on already-valid records awaits to a success
envelope whose count is the dispatched payload length, with the pre- and
post-insert dispatch warnings, and appends the payload to the store. -/
theorem runAsync_insertCore_valid (reg : Registry) (d : Driver) (sch : Schema)
    (coll : String) (docs : List Doc)
    (hv : (docs.map (validate sch)).flatten = []) :
    insertAsync reg d sch coll docs =
      (⟨true, "inserted", [],
        (dispatch (reg.hooksFor "pre_insert") ⟨coll, [], docs⟩).1.payload.length, [],
        (dispatch (reg.hooksFor "pre_insert") ⟨coll, [], docs⟩).2.1 ++
          (dispatch (reg.hooksFor "post_insert")
            ⟨coll, [], (dispatch (reg.hooksFor "pre_insert") ⟨coll, [], docs⟩).1.payload⟩).2.1⟩,
       ⟨d.store ++ (dispatch (reg.hooksFor "pre_insert") ⟨coll, [], docs⟩).1.payload,
        d.matchesFn⟩) := by
  unfold insertAsync insertCore
  rw [hv]
  rfl

/-- Running the update core awaits to a success envelope counting the
documents matching the dispatched filter, with the pre- and post-update
dispatch warnings, and updates the matching documents in the store. -/
theorem runAsync_updateCore (reg : Registry) (d : Driver) (coll : String)
    (nf : NativeDoc) (ops : Doc) :
    updateAsync reg d coll nf ops =
      (⟨true, "updated", [],
        (d.matching (dispatch (reg.hooksFor "pre_update") ⟨coll, nf, [ops]⟩).1.filt).length,
        [],
        (dispatch (reg.hooksFor "pre_update") ⟨coll, nf, [ops]⟩).2.1 ++
          (dispatch (reg.hooksFor "post_update")
            ⟨coll, (dispatch (reg.hooksFor "pre_update") ⟨coll, nf, [ops]⟩).1.filt, []⟩).2.1⟩,
       ⟨d.store.map (fun doc =>
          if d.matchesFn (dispatch (reg.hooksFor "pre_update") ⟨coll, nf, [ops]⟩).1.filt doc
          then applyUpdateOps ops doc else doc),
        d.matchesFn⟩) := rfl

/-- Running the delete core awaits to a success envelope counting the
documents matching the dispatched filter, with the pre- and post-delete
dispatch warnings, and removes the matching documents from the store. -/
theorem runAsync_deleteCore (reg : Registry) (d : Driver) (coll : String)
    (nf : NativeDoc) :
    deleteAsync reg d coll nf =
      (⟨true, "deleted", [],
        (d.matching (dispatch (reg.hooksFor "pre_delete") ⟨coll, nf, []⟩).1.filt).length,
        [],
        (dispatch (reg.hooksFor "pre_delete") ⟨coll, nf, []⟩).2.1 ++
          (dispatch (reg.hooksFor "post_delete")
            ⟨coll, (dispatch (reg.hooksFor "pre_delete") ⟨coll, nf, []⟩).1.filt, []⟩).2.1⟩,
       ⟨d.store.filter (fun doc =>
          !d.matchesFn (dispatch (reg.hooksFor "pre_delete") ⟨coll, nf, []⟩).1.filt doc),
        d.matchesFn⟩) := rfl

/-- C3: for every CRUD operation and every hook event, a registered
callback that raises is isolated — the host operation still succeeds, its
own result (result data for queries; count and resulting store for insert,
update, delete) is exactly what it would be without the failing callback,
and the failure is captured in the operation's recorded warnings.  Stated
for a callback at any registration position of each of the eight events
`pre_query`, `post_query`, `pre_insert`, `post_insert`, `pre_update`,
`post_update`, `pre_delete`, `post_delete`. -/
theorem C3_hook_failure_isolated (reg : Registry) (d : Driver) (coll : String)
    (q : QueryBuilder) (nq : NativeQuery) (sch : Schema) (docs : List Doc)
    (nf : NativeDoc) (ops : Doc) (pre post : List Hook) (h : Hook) (e : String)
    (hfail : ∀ c, h.fn c = .error e) :
    (compileQuery q = .ok nq → reg.hooksFor "pre_query" = pre ++ h :: post →
      ∃ r d2, toListRun reg d coll q = .ok (r, d2) ∧ e ∈ r.warnings
        ∧ r.data = findDocs (registryOf "pre_query" (pre ++ post)) d coll nq)
  ∧ (compileQuery q = .ok nq → reg.hooksFor "post_query" = pre ++ h :: post →
      ∃ r d2, toListRun reg d coll q = .ok (r, d2) ∧ e ∈ r.warnings
        ∧ r.data = findDocs reg d coll nq)
  ∧ (reg.hooksFor "pre_insert" = pre ++ h :: post →
      (docs.map (validate sch)).flatten = [] →
      (insertAsync reg d sch coll docs).1.success = true
      ∧ e ∈ (insertAsync reg d sch coll docs).1.warnings
      ∧ (insertAsync reg d sch coll docs).1.count
          = (insertAsync (registryOf "pre_insert" (pre ++ post)) d sch coll docs).1.count
      ∧ (insertAsync reg d sch coll docs).2
          = (insertAsync (registryOf "pre_insert" (pre ++ post)) d sch coll docs).2)
  ∧ (reg.hooksFor "post_insert" = pre ++ h :: post →
      (docs.map (validate sch)).flatten = [] →
      (insertAsync reg d sch coll docs).1.success = true
      ∧ e ∈ (insertAsync reg d sch coll docs).1.warnings
      ∧ (insertAsync reg d sch coll docs).1.count
          = (dispatch (reg.hooksFor "pre_insert") ⟨coll, [], docs⟩).1.payload.length)
  ∧ (reg.hooksFor "pre_update" = pre ++ h :: post →
      (updateAsync reg d coll nf ops).1.success = true
      ∧ e ∈ (updateAsync reg d coll nf ops).1.warnings
      ∧ (updateAsync reg d coll nf ops).1.count
          = (updateAsync (registryOf "pre_update" (pre ++ post)) d coll nf ops).1.count
      ∧ (updateAsync reg d coll nf ops).2
          = (updateAsync (registryOf "pre_update" (pre ++ post)) d coll nf ops).2)
  ∧ (reg.hooksFor "post_update" = pre ++ h :: post →
      (updateAsync reg d coll nf ops).1.success = true
      ∧ e ∈ (updateAsync reg d coll nf ops).1.warnings
      ∧ (updateAsync reg d coll nf ops).1.count
          = (d.matching (dispatch (reg.hooksFor "pre_update") ⟨coll, nf, [ops]⟩).1.filt).length)
  ∧ (reg.hooksFor "pre_delete" = pre ++ h :: post →
      (deleteAsync reg d coll nf).1.success = true
      ∧ e ∈ (deleteAsync reg d coll nf).1.warnings
      ∧ (deleteAsync reg d coll nf).1.count
          = (deleteAsync (registryOf "pre_delete" (pre ++ post)) d coll nf).1.count
      ∧ (deleteAsync reg d coll nf).2
          = (deleteAsync (registryOf "pre_delete" (pre ++ post)) d coll nf).2)
  ∧ (reg.hooksFor "post_delete" = pre ++ h :: post →
      (deleteAsync reg d coll nf).1.success = true
      ∧ e ∈ (deleteAsync reg d coll nf).1.warnings
      ∧ (deleteAsync reg d coll nf).1.count
          = (d.matching (dispatch (reg.hooksFor "pre_delete") ⟨coll, nf, []⟩).1.filt).length) := by
  refine ⟨?_, ?_, ?_, ?_, ?_, ?_, ?_, ?_⟩
  · intro hc hsplit
    have hiso := dispatch_isolates pre post h e hfail ⟨coll, nq.filter, []⟩
    unfold toListRun
    simp only [hc]
    rw [runAsync_findCore]
    refine ⟨_, _, rfl, ?_, ?_⟩
    · apply List.mem_append_left
      unfold preDispatch
      rw [hsplit]
      exact hiso.2
    · show findDocs reg d coll nq = findDocs (registryOf "pre_query" (pre ++ post)) d coll nq
      unfold findDocs preDispatch
      rw [hsplit, hooksFor_registryOf, hiso.1]
  · intro hc hsplit
    unfold toListRun
    simp only [hc]
    rw [runAsync_findCore]
    refine ⟨_, _, rfl, ?_, rfl⟩
    apply List.mem_append_right
    rw [hsplit]
    exact (dispatch_isolates pre post h e hfail _).2
  · intro hsplit hv
    rw [runAsync_insertCore_valid reg d sch coll docs hv,
        runAsync_insertCore_valid (registryOf "pre_insert" (pre ++ post)) d sch coll docs hv]
    refine ⟨rfl, ?_, ?_, ?_⟩
    · apply List.mem_append_left
      rw [hsplit]
      exact (dispatch_isolates pre post h e hfail _).2
    · rw [hsplit, hooksFor_registryOf, (dispatch_isolates pre post h e hfail _).1]
    · rw [hsplit, hooksFor_registryOf, (dispatch_isolates pre post h e hfail _).1]
  · intro hsplit hv
    rw [runAsync_insertCore_valid reg d sch coll docs hv]
    refine ⟨rfl, ?_, rfl⟩
    apply List.mem_append_right
    rw [hsplit]
    exact (dispatch_isolates pre post h e hfail _).2
  · intro hsplit
    rw [runAsync_updateCore reg d coll nf ops,
        runAsync_updateCore (registryOf "pre_update" (pre ++ post)) d coll nf ops]
    refine ⟨rfl, ?_, ?_, ?_⟩
    · apply List.mem_append_left
      rw [hsplit]
      exact (dispatch_isolates pre post h e hfail _).2
    · rw [hsplit, hooksFor_registryOf, (dispatch_isolates pre post h e hfail _).1]
    · rw [hsplit, hooksFor_registryOf, (dispatch_isolates pre post h e hfail _).1]
  · intro hsplit
    rw [runAsync_updateCore reg d coll nf ops]
    refine ⟨rfl, ?_, rfl⟩
    apply List.mem_append_right
    rw [hsplit]
    exact (dispatch_isolates pre post h e hfail _).2
  · intro hsplit
    rw [runAsync_deleteCore reg d coll nf,
        runAsync_deleteCore (registryOf "pre_delete" (pre ++ post)) d coll nf]
    refine ⟨rfl, ?_, ?_, ?_⟩
    · apply List.mem_append_left
      rw [hsplit]
      exact (dispatch_isolates pre post h e hfail _).2
    · rw [hsplit, hooksFor_registryOf, (dispatch_isolates pre post h e hfail _).1]
    · rw [hsplit, hooksFor_registryOf, (dispatch_isolates pre post h e hfail _).1]
  · intro hsplit
    rw [runAsync_deleteCore reg d coll nf]
    refine ⟨rfl, ?_, rfl⟩
    apply List.mem_append_right
    rw [hsplit]
    exact (dispatch_isolates pre post h e hfail _).2

/-- C3 witness: with the always-raising callback `bad` registered under all
eight hook events, against a one-document store: `toList` still returns the
hook-free results, and insert, update and delete all return success
envelopes whose counts and stores match the runs without the failing
callback, with `boom` recorded among every operation's warnings. -/
theorem C3_hook_failure_isolated_witness :
    (∃ r d2, toListRun allEventsFailingRegistry oneDocDriver "User" emptyQuery
        = .ok (r, d2) ∧ "boom" ∈ r.warnings
      ∧ r.data = findDocs (registryOf "pre_query" []) oneDocDriver "User"
          ⟨[], [], none, 0, 0⟩)
  ∧ (∃ r d2, toListRun allEventsFailingRegistry oneDocDriver "User" emptyQuery
        = .ok (r, d2) ∧ "boom" ∈ r.warnings
      ∧ r.data = findDocs allEventsFailingRegistry oneDocDriver "User"
          ⟨[], [], none, 0, 0⟩)
  ∧ ((insertAsync allEventsFailingRegistry oneDocDriver userSchema "User" []).1.success
        = true
      ∧ "boom" ∈ (insertAsync allEventsFailingRegistry oneDocDriver userSchema "User"
          []).1.warnings
      ∧ (insertAsync allEventsFailingRegistry oneDocDriver userSchema "User" []).1.count
          = (insertAsync (registryOf "pre_insert" []) oneDocDriver userSchema "User"
              []).1.count
      ∧ (insertAsync allEventsFailingRegistry oneDocDriver userSchema "User" []).2
          = (insertAsync (registryOf "pre_insert" []) oneDocDriver userSchema "User" []).2)
  ∧ ((insertAsync allEventsFailingRegistry oneDocDriver userSchema "User" []).1.success
        = true
      ∧ "boom" ∈ (insertAsync allEventsFailingRegistry oneDocDriver userSchema "User"
          []).1.warnings
      ∧ (insertAsync allEventsFailingRegistry oneDocDriver userSchema "User" []).1.count
          = (dispatch (allEventsFailingRegistry.hooksFor "pre_insert")
              ⟨"User", [], []⟩).1.payload.length)
  ∧ ((updateAsync allEventsFailingRegistry oneDocDriver "User" [] []).1.success = true
      ∧ "boom" ∈ (updateAsync allEventsFailingRegistry oneDocDriver "User" [] []).1.warnings
      ∧ (updateAsync allEventsFailingRegistry oneDocDriver "User" [] []).1.count
          = (updateAsync (registryOf "pre_update" []) oneDocDriver "User" [] []).1.count
      ∧ (updateAsync allEventsFailingRegistry oneDocDriver "User" [] []).2
          = (updateAsync (registryOf "pre_update" []) oneDocDriver "User" [] []).2)
  ∧ ((updateAsync allEventsFailingRegistry oneDocDriver "User" [] []).1.success = true
      ∧ "boom" ∈ (updateAsync allEventsFailingRegistry oneDocDriver "User" [] []).1.warnings
      ∧ (updateAsync allEventsFailingRegistry oneDocDriver "User" [] []).1.count
          = (oneDocDriver.matching (dispatch (allEventsFailingRegistry.hooksFor "pre_update")
              ⟨"User", [], [[]]⟩).1.filt).length)
  ∧ ((deleteAsync allEventsFailingRegistry oneDocDriver "User" []).1.success = true
      ∧ "boom" ∈ (deleteAsync allEventsFailingRegistry oneDocDriver "User" []).1.warnings
      ∧ (deleteAsync allEventsFailingRegistry oneDocDriver "User" []).1.count
          = (deleteAsync (registryOf "pre_delete" []) oneDocDriver "User" []).1.count
      ∧ (deleteAsync allEventsFailingRegistry oneDocDriver "User" []).2
          = (deleteAsync (registryOf "pre_delete" []) oneDocDriver "User" []).2)
  ∧ ((deleteAsync allEventsFailingRegistry oneDocDriver "User" []).1.success = true
      ∧ "boom" ∈ (deleteAsync allEventsFailingRegistry oneDocDriver "User" []).1.warnings
      ∧ (deleteAsync allEventsFailingRegistry oneDocDriver "User" []).1.count
          = (oneDocDriver.matching (dispatch (allEventsFailingRegistry.hooksFor "pre_delete")
              ⟨"User", [], []⟩).1.filt).length) := by
  have T := C3_hook_failure_isolated allEventsFailingRegistry oneDocDriver "User"
    emptyQuery ⟨[], [], none, 0, 0⟩ userSchema [] [] [] [] [] failingHook "boom"
    (fun _ => rfl)
  exact ⟨T.1 rfl rfl, T.2.1 rfl rfl, T.2.2.1 rfl rfl, T.2.2.2.1 rfl rfl,
    T.2.2.2.2.1 rfl, T.2.2.2.2.2.1 rfl, T.2.2.2.2.2.2.1 rfl, T.2.2.2.2.2.2.2 rfl⟩

/-- C8: `$or`/`$and` grouping keys recursively compile each nested mapping;
an empty group list is a `MalformedFilterError`, which also fails the read
call immediately instead of being returned in a Response Envelope. -/
theorem C8_malformed_group_fails_fast (gkey : String) (gs : FilterList)
    (docs : List NativeDoc) (ce : CompileError) (reg : Registry) (d : Driver)
    (coll : String) (srt : List (String × Int)) (proj : Option (Bool × List String))
    (skp lim : Nat) (hkey : gkey = "$or" ∨ gkey = "$and") :
    compileMap (.cons gkey (.group .nil) .nil) = .error (.malformedFilter gkey)
  ∧ (gs ≠ .nil → compileList gs = .ok docs →
      compileMap (.cons gkey (.group gs) .nil) = .ok [(gkey, .group docs)])
  ∧ (gs ≠ .nil → compileList gs = .error ce →
      compileMap (.cons gkey (.group gs) .nil) = .error ce)
  ∧ toListRun reg d coll ⟨.cons gkey (.group .nil) .nil, srt, proj, skp, lim⟩
      = .error (.malformedFilter gkey) := by
  have hmain : ∀ gkey2 : String, gkey2 = "$or" ∨ gkey2 = "$and" →
      splitKey gkey2 = (gkey2, none) := by
    rintro gkey2 (rfl | rfl) <;> rfl
  have hsplit := hmain gkey hkey
  have hempty : compileMap (.cons gkey (.group .nil) .nil)
      = .error (.malformedFilter gkey) := by
    unfold compileMap compileEntry
    simp only [hsplit]
    rw [if_pos hkey]
    rfl
  refine ⟨hempty, ?_, ?_, ?_⟩
  · intro hne hok
    unfold compileMap compileEntry
    simp only [hsplit]
    rw [if_pos hkey]
    cases gs with
    | nil => exact absurd rfl hne
    | cons m rest =>
      rw [hok]
      rfl
  · intro hne herr
    unfold compileMap compileEntry
    simp only [hsplit]
    rw [if_pos hkey]
    cases gs with
    | nil => exact absurd rfl hne
    | cons m rest =>
      rw [herr]
      rfl
  · unfold toListRun compileQuery
    simp only [hempty]

/-- C8 witness: the empty `$or` group fails compilation and the read call
with `MalformedFilterError`, while a one-element group compiles its nested
mapping recursively. -/
theorem C8_malformed_group_fails_fast_witness :
    compileMap (.cons "$or" (.group .nil) .nil) = .error (.malformedFilter "$or")
  ∧ compileMap (.cons "$or" (.group (.cons .nil .nil)) .nil) = .ok [("$or", .group [[]])]
  ∧ toListRun emptyRegistry ⟨[], fun _ _ => false⟩ "User"
      ⟨.cons "$or" (.group .nil) .nil, [], none, 0, 0⟩
      = .error (.malformedFilter "$or") :=
  ⟨(C8_malformed_group_fails_fast "$or" (.cons .nil .nil) [[]] (.malformedFilter "x")
      emptyRegistry ⟨[], fun _ _ => false⟩ "User" [] none 0 0 (Or.inl rfl)).1,
   (C8_malformed_group_fails_fast "$or" (.cons .nil .nil) [[]] (.malformedFilter "x")
      emptyRegistry ⟨[], fun _ _ => false⟩ "User" [] none 0 0 (Or.inl rfl)).2.1
      (fun h => FilterList.noConfusion h) rfl,
   (C8_malformed_group_fails_fast "$or" (.cons .nil .nil) [[]] (.malformedFilter "x")
      emptyRegistry ⟨[], fun _ _ => false⟩ "User" [] none 0 0 (Or.inl rfl)).2.2.2⟩

/-- The driver's sort of an empty result sequence is empty. -/
theorem sortDocs_nil (spec : List (String × Int)) : sortDocs spec [] = [] := by
  cases spec <;> rfl

/-- C9: when the executed filter matches no stored document the read
terminals do not raise — `toList` returns the empty sequence, `first`
returns the explicit none sentinel, and `count` returns `0`. -/
theorem C9_empty_reads_not_errors (reg : Registry) (d : Driver) (coll : String)
    (q : QueryBuilder) (nq : NativeQuery) (hc : compileQuery q = .ok nq)
    (hm : ∀ doc ∈ d.store, d.matchesFn (preDispatch reg coll nq).1.filt doc = false) :
    (∃ r d2, toListRun reg d coll q = .ok (r, d2) ∧ r.data = [])
  ∧ (∃ d2, firstRun reg d coll q = .ok (none, d2))
  ∧ (∃ ws d2, countRun reg d coll q = .ok ((0, ws), d2)) := by
  have hmatch : d.matching (preDispatch reg coll nq).1.filt = [] := by
    unfold Driver.matching
    rw [List.filter_eq_nil_iff]
    intro a ha
    simp [hm a ha]
  have hdocs : findDocs reg d coll nq = [] := by
    unfold findDocs
    rw [hmatch, sortDocs_nil]
    simp [applyLimit]
  have hc2 : compileQuery { q with limit := 1 } = .ok { nq with limit := 1 } := by
    unfold compileQuery at hc ⊢
    cases hmp : compileMap q.filt with
    | ok nf =>
      rw [hmp] at hc
      cases hc
      rfl
    | error ce => rw [hmp] at hc; cases hc
  have hdocs2 : findDocs reg d coll { nq with limit := 1 } = [] := by
    unfold findDocs
    rw [show preDispatch reg coll { nq with limit := 1 } = preDispatch reg coll nq from rfl,
        hmatch, sortDocs_nil]
    simp [applyLimit]
  refine ⟨?_, ?_, ?_⟩
  · unfold toListRun
    simp only [hc]
    rw [runAsync_findCore]
    exact ⟨_, _, rfl, hdocs⟩
  · unfold firstRun toListRun
    simp only [hc2]
    rw [runAsync_findCore]
    exact ⟨d, by simp [hdocs2]⟩
  · unfold countRun
    simp only [hc]
    have hrun : runAsync d (countCore reg coll nq.filter) =
        (((d.matching (preDispatch reg coll nq).1.filt).length,
          (preDispatch reg coll nq).2.1), d) := rfl
    rw [hrun, hmatch]
    exact ⟨_, _, rfl⟩

/-- C9 witness: against a one-document store whose matcher rejects every
document, `toList` yields `[]`, `first` yields the none sentinel, and
`count` yields `0`, all without an error. -/
theorem C9_empty_reads_not_errors_witness :
    (∃ r d2, toListRun emptyRegistry ⟨[[("a", Value.int 1)]], fun _ _ => false⟩ "User"
        emptyQuery = .ok (r, d2) ∧ r.data = [])
  ∧ (∃ d2, firstRun emptyRegistry ⟨[[("a", Value.int 1)]], fun _ _ => false⟩ "User"
        emptyQuery = .ok (none, d2))
  ∧ (∃ ws d2, countRun emptyRegistry ⟨[[("a", Value.int 1)]], fun _ _ => false⟩ "User"
        emptyQuery = .ok ((0, ws), d2)) :=
  C9_empty_reads_not_errors emptyRegistry ⟨[[("a", Value.int 1)]], fun _ _ => false⟩
    "User" emptyQuery ⟨[], [], none, 0, 0⟩ rfl (fun _ _ => rfl)

/-- C10: hook registration through the `on(event)` decorator is
process-wide and independent of any DB handle — the decorator hands the
callback back unchanged, registration appends to the registry, a query
issued through any handle is unaffected by which handle it goes through,
and the module-registered `log_pre` callback is invoked around it. -/
theorem C10_process_wide_hook_registry (r : Registry) (d : Driver) (coll : String)
    (q : QueryBuilder) (nq : NativeQuery) (h1 h2 : DBHandle)
    (hc : compileQuery q = .ok nq) :
    ((r.on "pre_query" log_pre).2 = log_pre)
  ∧ ((appInit r).hooksFor "pre_query" = r.hooksFor "pre_query" ++ [log_pre])
  ∧ (h1.findToList (appInit r) d coll q = h2.findToList (appInit r) d coll q)
  ∧ (∃ res d2, h1.findToList (appInit r) d coll q = .ok (res, d2)
       ∧ "log_pre" ∈ res.trace) := by
  have hreg : (appInit r).hooksFor "pre_query" = r.hooksFor "pre_query" ++ [log_pre] := by
    simp [appInit, Registry.on, Registry.hooksFor, List.filter_append]
  refine ⟨rfl, hreg, rfl, ?_⟩
  unfold DBHandle.findToList toListRun
  simp only [hc]
  rw [runAsync_findCore]
  refine ⟨_, _, rfl, ?_⟩
  apply List.mem_append_left
  unfold preDispatch
  rw [dispatch_trace, hreg]
  simp [log_pre]

/-- C10 witness: after the app module's registrations on the empty
registry, a query through a separately obtained handle succeeds and its
trace records the `log_pre` invocation; the decorator returned `log_pre`
itself. -/
theorem C10_process_wide_hook_registry_witness :
    ((emptyRegistry.on "pre_query" log_pre).2 = log_pre)
  ∧ ((appInit emptyRegistry).hooksFor "pre_query"
      = emptyRegistry.hooksFor "pre_query" ++ [log_pre])
  ∧ (DBHandle.findToList ⟨"h1"⟩ (appInit emptyRegistry) ⟨[], fun _ _ => false⟩ "User"
        emptyQuery
      = DBHandle.findToList ⟨"h2"⟩ (appInit emptyRegistry) ⟨[], fun _ _ => false⟩ "User"
        emptyQuery)
  ∧ (∃ res d2, DBHandle.findToList ⟨"h1"⟩ (appInit emptyRegistry) ⟨[], fun _ _ => false⟩
        "User" emptyQuery = .ok (res, d2) ∧ "log_pre" ∈ res.trace) :=
  C10_process_wide_hook_registry emptyRegistry ⟨[], fun _ _ => false⟩ "User" emptyQuery
    ⟨[], [], none, 0, 0⟩ ⟨"h1"⟩ ⟨"h2"⟩ rfl

end GDMongo
